import Mathlib

/-
Verification of the solana-trading plugin core
(`src/index.ts`, `src/utils/indicators.ts`, `src/utils/marketMonitor.ts`).

Embedding conventions:
- JavaScript `number` values are modelled as exact rationals (`ℚ`); the
  Bollinger-band computation, which calls `Math.sqrt`, is modelled over `ℝ`
  with `Real.sqrt`.  IEEE-754 rounding is outside the model; IEEE special
  values (`Infinity`, `NaN`) arising from division by zero are modelled
  explicitly at the one reachable site (the final RSI division), where a
  `NaN` result is rendered as `Option.none`.
- Out-of-bounds array reads (`prices[prices.length - 1]` on an empty array,
  which yields `undefined` in JavaScript) are rendered as `Option.none`.
- Periods are natural numbers; where the source computes `period - 1` on a
  JavaScript number, the embedding uses `(period : ℚ) - 1` so that the
  subtraction is the source's integer subtraction, not truncated `Nat`
  subtraction.
- Effectful methods are embedded as pure state transformers: the history
  update keeps only its effect on the per-pair history record, and the
  alert check returns the list of alerts together with the optional
  persistence write it would perform.
-/

set_option maxRecDepth 8000

namespace SolanaTrading

/-- Order/signal direction, `'buy' | 'sell'` in the source. -/
inductive Direction where
  | buy
  | sell
deriving DecidableEq, Repr

/-- `RiskConfig` from `src/index.ts` (and `src/utils/types.ts`). -/
structure RiskConfig where
  maxPositionPercentage : ℚ
  maxLeverage : ℚ
  targetDailyReturn : ℚ
  stopLossPercentage : ℚ
  dailyLossLimit : ℚ
deriving DecidableEq, Repr

/-- The hardcoded conservative risk configuration `this.riskConfig`
(`src/index.ts` lines 95-101): 1% max position, 3.3x leverage, 1% daily
target, 0.5% stop loss, 2% daily loss limit. -/
def riskConfig : RiskConfig :=
  { maxPositionPercentage := 1 / 100
  , maxLeverage := 33 / 10
  , targetDailyReturn := 1 / 100
  , stopLossPercentage := 5 / 1000
  , dailyLossLimit := 2 / 100 }

/-- The hardcoded example balance in `calculateConservativePosition`
(`src/index.ts` line 239). -/
def availableCapital : ℚ := 1000

/-- `calculateConservativePosition` (`src/index.ts` lines 237-246):
`maxPosition = availableCapital * maxPositionPercentage`, scaled by
confidence.  The `price` parameter is accepted and ignored, as in the
source. -/
def calculateConservativePosition (cfg : RiskConfig) (_price confidence : ℚ) : ℚ :=
  let maxPosition := availableCapital * cfg.maxPositionPercentage
  maxPosition * confidence

/-- `calculateStopLoss` (`src/index.ts` lines 248-253). -/
def calculateStopLoss (cfg : RiskConfig) (price : ℚ) (direction : Direction) : ℚ :=
  match direction with
  | .buy => price * (1 - cfg.stopLossPercentage)
  | .sell => price * (1 + cfg.stopLossPercentage)

/-- `calculateTakeProfit` (`src/index.ts` lines 255-260); the take-profit
percentage is `riskConfig.targetDailyReturn`. -/
def calculateTakeProfit (cfg : RiskConfig) (price : ℚ) (direction : Direction) : ℚ :=
  match direction with
  | .buy => price * (1 + cfg.targetDailyReturn)
  | .sell => price * (1 - cfg.targetDailyReturn)

/-- `calculateEMA` (`src/utils/indicators.ts` lines 7-20).  With
`prices.length < period` the source returns `prices[prices.length - 1]`,
which is `undefined` on an empty array — rendered as `getLast?`.
Otherwise the accumulator is seeded with `prices[0]` and the recurrence
`ema = price * multiplier + ema * (1 - multiplier)` with
`multiplier = 2 / (period + 1)` is folded over the whole remaining
sequence.  (On an empty list the main branch would also read
`prices[0] = undefined`, hence `none`.) -/
def calculateEMA (prices : List ℚ) (period : ℕ) : Option ℚ :=
  if prices.length < period then prices.getLast?
  else
    match prices with
    | [] => none
    | p :: rest =>
      let multiplier : ℚ := 2 / ((period : ℚ) + 1)
      some (rest.foldl (fun ema price => price * multiplier + ema * (1 - multiplier)) p)

/-- The list of consecutive differences `prices[i] - prices[i-1]`
(for `i = 1 .. prices.length - 1`), as consumed by `calculateRSI`. -/
def diffs (prices : List ℚ) : List ℚ :=
  List.zipWith (fun a b => b - a) prices prices.tail

/-- One iteration of the seeding loop of `calculateRSI`
(`src/utils/indicators.ts` lines 30-37): a difference `>= 0` accrues to
the gains sum, otherwise its negation accrues to the losses sum. -/
def seedStep (s : ℚ × ℚ) (d : ℚ) : ℚ × ℚ :=
  if 0 ≤ d then (s.1 + d, s.2) else (s.1, s.2 - d)

/-- One iteration of the Wilder-smoothing loop of `calculateRSI`
(`src/utils/indicators.ts` lines 44-54), acting on `(avgGain, avgLoss)`. -/
def wilderStep (period : ℕ) (s : ℚ × ℚ) (d : ℚ) : ℚ × ℚ :=
  if 0 ≤ d then
    ((s.1 * ((period : ℚ) - 1) + d) / (period : ℚ),
     (s.2 * ((period : ℚ) - 1)) / (period : ℚ))
  else
    ((s.1 * ((period : ℚ) - 1)) / (period : ℚ),
     (s.2 * ((period : ℚ) - 1) - d) / (period : ℚ))

/-- The pair `(avgGain, avgLoss)` after both loops of `calculateRSI`
(`src/utils/indicators.ts` lines 26-54): the first `period` differences
seed the sums of gains and losses, which are divided by `period` and then
Wilder-smoothed over the remaining differences. -/
def rsiAverages (prices : List ℚ) (period : ℕ) : ℚ × ℚ :=
  let ds := diffs prices
  let seed := (ds.take period).foldl seedStep (0, 0)
  (ds.drop period).foldl (wilderStep period)
    (seed.1 / (period : ℚ), seed.2 / (period : ℚ))

/-- The final statement of `calculateRSI`
(`src/utils/indicators.ts` lines 56-57):
`rs = avgGain / avgLoss; return 100 - 100 / (1 + rs)`, on IEEE numbers.
When `avgLoss = 0` and `avgGain ≠ 0` the quotient is `±Infinity` and the
expression evaluates to exactly 100; when both are 0 it is `0/0 = NaN`
and the result is `NaN`, rendered here as `none`. -/
def rsiFinal (a : ℚ × ℚ) : Option ℚ :=
  if a.2 = 0 then
    if a.1 = 0 then none
    else some 100
  else some (100 - 100 / (1 + a.1 / a.2))

/-- `calculateRSI` (`src/utils/indicators.ts` lines 23-58). -/
def calculateRSI (prices : List ℚ) (period : ℕ) : Option ℚ :=
  if prices.length < period + 1 then some 50
  else rsiFinal (rsiAverages prices period)

/-- The true ranges at indices `i > 0` in `calculateATR`
(`src/utils/indicators.ts` lines 90-99): for each triple of `high[i]`,
`low[i]` and the previous close `closes[i-1]`,
`max(high - low, |high - prevClose|, |low - prevClose|)`. -/
def trTail : List ℚ → List ℚ → List ℚ → List ℚ
  | h :: hs, l :: ls, c :: cs =>
      max (h - l) (max |h - c| |l - c|) :: trTail hs ls cs
  | _, _, _ => []

/-- The full true-range sequence of `calculateATR`: index 0 is
`high[0] - low[0]`, later indices come from `trTail` (which receives the
closes starting at index 0, i.e. the previous close of each element). -/
def trueRanges (highs lows closes : List ℚ) : List ℚ :=
  match highs, lows with
  | h :: hs, l :: ls => (h - l) :: trTail hs ls closes
  | _, _ => []

/-- One iteration of the Wilder smoothing in `calculateATR`
(`src/utils/indicators.ts` line 104): `atr = (atr*(period-1) + tr) / period`. -/
def atrStep (period : ℕ) (atr tr : ℚ) : ℚ :=
  (atr * ((period : ℚ) - 1) + tr) / (period : ℚ)

/-- `calculateATR` (`src/utils/indicators.ts` lines 86-108): 0 with fewer
than 2 highs, otherwise the Wilder fold over the true ranges seeded with
the first one.  (The `[] => 0` arm is unreachable: with at least 2 highs
the true-range list is nonempty.) -/
def calculateATR (highs lows closes : List ℚ) (period : ℕ) : ℚ :=
  if highs.length < 2 then 0
  else
    match trueRanges highs lows closes with
    | [] => 0
    | t :: ts => ts.foldl (atrStep period) t

/-- JavaScript `arr.slice(-n)` for a natural number `n`: the last `n`
elements of the array — except that `-0` is `0`, so `slice(-0)` is
`slice(0)`, a copy of the whole array. -/
def jsSliceLast {α : Type*} (n : ℕ) (l : List α) : List α :=
  if n = 0 then l else l.drop (l.length - n)

/-- The record returned by `calculateBollingerBands`
(`src/utils/indicators.ts` lines 78-82). -/
structure BollingerBands where
  upper : ℝ
  middle : ℝ
  lower : ℝ

/-- `calculateBollingerBands` (`src/utils/indicators.ts` lines 61-83),
over the reals because it calls `Math.sqrt`.  With `prices.length <
period` the source returns the last price three times
(`prices[prices.length - 1]` is `undefined` on an empty array, hence
`none`).  Otherwise it takes `prices.slice(-period)`, the SMA of that
window (middle band), the population standard deviation (sum of squared
deviations divided by `period`), and middle ± stddev·multiplier.  The
`isEmpty` guard models `[].reduce` throwing, which is reachable only for
an empty price list with `period = 0`. -/
noncomputable def calculateBollingerBands (prices : List ℝ) (period : ℕ)
    (stdDev : ℝ) : Option BollingerBands :=
  if prices.length < period then
    prices.getLast?.map (fun price => ⟨price, price, price⟩)
  else
    let relevantPrices := jsSliceLast period prices
    if relevantPrices = [] then none
    else
      let sma := relevantPrices.sum / (period : ℝ)
      let standardDeviation :=
        Real.sqrt ((relevantPrices.map (fun p => (p - sma) ^ 2)).sum / (period : ℝ))
      some ⟨sma + standardDeviation * stdDev, sma, sma - standardDeviation * stdDev⟩

/-- The arithmetic mean of a list of reals (the spec's description of the
middle band). -/
noncomputable def listMean (l : List ℝ) : ℝ := l.sum / (l.length : ℝ)

/-- The population variance `calculateBollingerBands` takes the square
root of: the sum of squared deviations from the window mean, divided by
`period` (not `period - 1`). -/
noncomputable def popVariance (l : List ℝ) (period : ℕ) : ℝ :=
  ((l.map (fun p => (p - l.sum / (period : ℝ)) ^ 2)).sum) / (period : ℝ)

/-- The per-pair price-history record held in `MarketMonitor.priceHistory`
(`src/utils/marketMonitor.ts` lines 13-18): four parallel sequences,
newest last. -/
structure PairHistory where
  prices : List ℚ
  highs : List ℚ
  lows : List ℚ
  volumes : List ℚ
deriving DecidableEq, Repr

/-- The empty history installed for a pair by `initializePairMonitoring`
(`src/utils/marketMonitor.ts` lines 50-55). -/
def emptyHistory : PairHistory := ⟨[], [], [], []⟩

/-- `maxPeriod` as computed inside `updateMarketData`
(`src/utils/marketMonitor.ts` lines 141-144):
`Math.max(...config.indicators.ema, config.indicators.volatility.bbPeriod * 2)`. -/
def maxPeriod (emaPeriods : List ℕ) (bbPeriod : ℕ) : ℕ :=
  emaPeriods.foldr max (bbPeriod * 2)

/-- The effect of one completed `updateMarketData` call
(`src/utils/marketMonitor.ts` lines 121-154) on the history record: push
the sample (the price is pushed to prices, highs and lows alike — "for
this basic implementation" — and the 24h volume to volumes); then, if the
new length exceeds `maxPeriod`, replace all four sequences by their
`slice(-maxPeriod)`.  The indicator computation, persistence and alert
check that run between the push and the truncation do not touch the
history.  `mp` is the `maxPeriod` value derived from the configuration. -/
def updateMarketData (mp : ℕ) (h : PairHistory) (price volume : ℚ) : PairHistory :=
  let pushed : PairHistory :=
    ⟨h.prices ++ [price], h.highs ++ [price], h.lows ++ [price], h.volumes ++ [volume]⟩
  if mp < pushed.prices.length then
    ⟨jsSliceLast mp pushed.prices, jsSliceLast mp pushed.highs,
     jsSliceLast mp pushed.lows, jsSliceLast mp pushed.volumes⟩
  else pushed

/-- History states reachable from the empty history by completed
`updateMarketData` calls. -/
inductive Reachable (mp : ℕ) : PairHistory → Prop where
  | empty : Reachable mp emptyHistory
  | step (h : PairHistory) (price volume : ℚ) :
      Reachable mp h → Reachable mp (updateMarketData mp h price volume)

/-- Alert type tags (`src/utils/marketMonitor.ts` lines 219-245). -/
inductive AlertType where
  | PRICE_CHANGE
  | VOLUME_SPIKE
  | LOW_LIQUIDITY
deriving DecidableEq, Repr

/-- Alert severities (`src/utils/marketMonitor.ts` lines 219-245). -/
inductive Severity where
  | HIGH
  | MEDIUM
deriving DecidableEq, Repr

/-- An alert record.  The human-readable message string and the
wall-clock timestamp the source also stores are outside this numeric
model. -/
structure Alert where
  type : AlertType
  severity : Severity
deriving DecidableEq, Repr

/-- The `alertThresholds` field of `MonitoringConfig`
(`src/utils/types.ts` lines 51-55). -/
structure AlertThresholds where
  priceChange : ℚ
  volumeSpike : ℚ
  lowLiquidity : ℚ
deriving DecidableEq, Repr

/-- The slice of `MonitoringConfig` read by `checkAlertConditions`. -/
structure AlertConfig where
  volumeThreshold : ℚ
  alertThresholds : AlertThresholds
deriving DecidableEq, Repr

/-- The indicator bundle carried by a market snapshot.  Only the RSI is
read by the embedded decision logic; the EMA record, Bollinger bands and
ATR the source also carries are never read by it and are omitted. -/
structure IndicatorBundle where
  rsi : ℚ
deriving DecidableEq, Repr

/-- `MarketData` (`src/utils/types.ts` lines 12-29), restricted to the
numeric fields the alert and decision logic read (the timestamp is
wall-clock time, outside the model). -/
structure MarketData where
  price : ℚ
  volume24h : ℚ
  liquidity : ℚ
  priceChange24h : ℚ
  volatility : ℚ
  indicators : IndicatorBundle
deriving DecidableEq, Repr

/-- The three threshold checks of `checkAlertConditions`
(`src/utils/marketMonitor.ts` lines 211-256), in source order; each met
condition appends one alert to the list. -/
def checkAlertConditions (cfg : AlertConfig) (data : MarketData) : List Alert :=
  (if cfg.alertThresholds.priceChange < |data.priceChange24h| then
    [⟨.PRICE_CHANGE, .HIGH⟩] else []) ++
  (if cfg.volumeThreshold * cfg.alertThresholds.volumeSpike < data.volume24h then
    [⟨.VOLUME_SPIKE, .MEDIUM⟩] else []) ++
  (if data.liquidity < cfg.alertThresholds.lowLiquidity then
    [⟨.LOW_LIQUIDITY, .HIGH⟩] else [])

/-- The persistence step at the end of `checkAlertConditions`
(`src/utils/marketMonitor.ts` lines 248-255): `trustDB.set` is called
with the alert list exactly when `alerts.length > 0`; `none` models "no
store write performed". -/
def alertStoreWrite (cfg : AlertConfig) (data : MarketData) : Option (List Alert) :=
  let alerts := checkAlertConditions cfg data
  if 0 < alerts.length then some alerts else none

/-- The analysis record returned by `analyzeTechnicalIndicators`. -/
structure Analysis where
  shouldTrade : Bool
  direction : Direction
  confidence : ℚ
deriving DecidableEq, Repr

/-- `analyzeTechnicalIndicators` (`src/index.ts` lines 220-235): trade
exactly when RSI < 30 (oversold); direction is buy when RSI < 40, else
sell; confidence is the constant 0.8.  (The source also computes
`rsiSellSignal = rsi > 60` but never uses it.) -/
def analyzeTechnicalIndicators (marketData : MarketData) : Analysis :=
  { shouldTrade := decide (marketData.indicators.rsi < 30)
  , direction := if marketData.indicators.rsi < 40 then .buy else .sell
  , confidence := 8 / 10 }

/-- The trading-limit fields of `BotConfig` read by
`isMarketSuitableForTrading` (`src/index.ts` lines 208-213). -/
structure TradingLimits where
  minLiquidity : ℚ
  maxVolatility : ℚ
deriving DecidableEq, Repr

/-- `isMarketSuitableForTrading` (`src/index.ts` lines 208-213). -/
def isMarketSuitableForTrading (limits : TradingLimits)
    (marketData : MarketData) : Bool :=
  decide (limits.minLiquidity ≤ marketData.liquidity) &&
  decide (marketData.volatility ≤ limits.maxVolatility)

/-- `canTrade` (`src/index.ts` lines 215-218): an unconditional
pass-through placeholder. -/
def canTrade : Bool := true

/-- The order submitted through `executeOrder` (`src/index.ts` lines
261-304), holding the arguments `evaluateTradeOpportunities` passes it. -/
structure Order where
  side : Direction
  size : ℚ
  price : ℚ
  stopLoss : ℚ
  takeProfit : ℚ
deriving DecidableEq, Repr

/-- `evaluateTradeOpportunities` (`src/index.ts` lines 170-206), rendered
as the order it submits — `none` when the suitability gate or the
(placeholder) permission gate fails, or when no signal fires or the
position size is not positive.  The `alerts` argument the source accepts
and never reads is omitted. -/
def evaluateTradeOpportunities (cfg : RiskConfig) (limits : TradingLimits)
    (marketData : MarketData) : Option Order :=
  if !isMarketSuitableForTrading limits marketData then none
  else if !canTrade then none
  else
    let analysis := analyzeTechnicalIndicators marketData
    let positionSize :=
      calculateConservativePosition cfg marketData.price analysis.confidence
    if analysis.shouldTrade && decide (0 < positionSize) then
      some { side := analysis.direction
           , size := positionSize
           , price := marketData.price
           , stopLoss := calculateStopLoss cfg marketData.price analysis.direction
           , takeProfit := calculateTakeProfit cfg marketData.price analysis.direction }
    else none

/-- A market snapshot used as a concrete probe of the decision pipeline:
oversold RSI 25, ample liquidity, zero volatility. -/
def exampleMarketData : MarketData :=
  { price := 100, volume24h := 0, liquidity := 10, priceChange24h := 0,
    volatility := 0, indicators := ⟨25⟩ }

/-- Trading limits that the probe snapshot passes. -/
def exampleLimits : TradingLimits := ⟨0, 1⟩

end SolanaTrading

namespace SolanaTrading

/-- C1: the position size equals `availableCapital * maxPositionPercentage *
confidence` for every entry price (so it is linear in confidence), and it
never exceeds `availableCapital * maxPositionPercentage` for any confidence
at most 1 — in particular never in the program, whose strategy emits the
constant confidence 0.8. -/
theorem c1_position_sizing (cfg : RiskConfig) (price confidence : ℚ) :
    calculateConservativePosition cfg price confidence =
      availableCapital * cfg.maxPositionPercentage * confidence ∧
    (∀ a c : ℚ, calculateConservativePosition cfg price (a * c) =
      a * calculateConservativePosition cfg price c) ∧
    (confidence ≤ 1 →
      calculateConservativePosition riskConfig price confidence ≤
        availableCapital * riskConfig.maxPositionPercentage) ∧
    (∀ md : MarketData,
      calculateConservativePosition riskConfig price
          (analyzeTechnicalIndicators md).confidence ≤
        availableCapital * riskConfig.maxPositionPercentage) := by
  have hcap : availableCapital * riskConfig.maxPositionPercentage = 10 := by
    norm_num [availableCapital, riskConfig]
  refine ⟨rfl, fun a c => by simp [calculateConservativePosition]; ring,
    fun h => ?_, fun md => ?_⟩
  · simp only [calculateConservativePosition, hcap]
    linarith
  · simp only [calculateConservativePosition, analyzeTechnicalIndicators, hcap]
    norm_num

/-- C1 witness: at entry price 100 and the strategy's constant confidence
0.8, the size is 8 and does not exceed the 1% cap of 10. -/
theorem c1_position_sizing_witness :
    calculateConservativePosition riskConfig 100 (8 / 10) =
      availableCapital * riskConfig.maxPositionPercentage * (8 / 10) ∧
    calculateConservativePosition riskConfig 100 (8 / 10) ≤
      availableCapital * riskConfig.maxPositionPercentage := by
  have h := c1_position_sizing riskConfig 100 (8 / 10)
  exact ⟨h.1, h.2.2.1 (by norm_num)⟩

/-- C2: for positive entry price and stop-loss/target percentages strictly
between 0 and 1, the stop-loss and take-profit are the stated symmetric
percentage offsets, with stop-loss < price < take-profit for a buy and
take-profit < price < stop-loss for a sell. -/
theorem c2_stop_loss_take_profit (cfg : RiskConfig) (price : ℚ)
    (hp : 0 < price)
    (hs0 : 0 < cfg.stopLossPercentage) (hs1 : cfg.stopLossPercentage < 1)
    (ht0 : 0 < cfg.targetDailyReturn) (ht1 : cfg.targetDailyReturn < 1) :
    calculateStopLoss cfg price Direction.buy = price * (1 - cfg.stopLossPercentage) ∧
    calculateTakeProfit cfg price Direction.buy = price * (1 + cfg.targetDailyReturn) ∧
    calculateStopLoss cfg price Direction.sell = price * (1 + cfg.stopLossPercentage) ∧
    calculateTakeProfit cfg price Direction.sell = price * (1 - cfg.targetDailyReturn) ∧
    calculateStopLoss cfg price Direction.buy < price ∧
    price < calculateTakeProfit cfg price Direction.buy ∧
    calculateTakeProfit cfg price Direction.sell < price ∧
    price < calculateStopLoss cfg price Direction.sell := by
  refine ⟨rfl, rfl, rfl, rfl, ?_, ?_, ?_, ?_⟩ <;>
    simp only [calculateStopLoss, calculateTakeProfit] <;> nlinarith

/-- C2 witness: at price 100 under the reference risk configuration
(stop-loss 0.5%, target 1%), a buy has stop-loss 99.5 < 100 < 101 and a
sell has take-profit 99 < 100 < 100.5. -/
theorem c2_stop_loss_take_profit_witness :
    calculateStopLoss riskConfig 100 Direction.buy = 100 * (1 - riskConfig.stopLossPercentage) ∧
    calculateStopLoss riskConfig 100 Direction.buy < 100 ∧
    (100 : ℚ) < calculateTakeProfit riskConfig 100 Direction.buy ∧
    calculateTakeProfit riskConfig 100 Direction.sell < 100 ∧
    (100 : ℚ) < calculateStopLoss riskConfig 100 Direction.sell := by
  have h := c2_stop_loss_take_profit riskConfig 100 (by norm_num)
    (by norm_num [riskConfig]) (by norm_num [riskConfig])
    (by norm_num [riskConfig]) (by norm_num [riskConfig])
  exact ⟨h.1, h.2.2.2.2.1, h.2.2.2.2.2.1, h.2.2.2.2.2.2.1, h.2.2.2.2.2.2.2⟩

theorem seedStep_foldl_nonneg (ds : List ℚ) :
    ∀ g l : ℚ, 0 ≤ g → 0 ≤ l →
      0 ≤ (ds.foldl seedStep (g, l)).1 ∧ 0 ≤ (ds.foldl seedStep (g, l)).2 := by
  induction ds with
  | nil => exact fun g l hg hl => ⟨hg, hl⟩
  | cons d ds ih =>
    intro g l hg hl
    rw [List.foldl_cons]
    by_cases hd : 0 ≤ d
    · rw [show seedStep (g, l) d = (g + d, l) from by simp [seedStep, hd]]
      exact ih (g + d) l (by linarith) hl
    · rw [show seedStep (g, l) d = (g, l - d) from by simp [seedStep, hd]]
      exact ih g (l - d) hg (by push_neg at hd; linarith)

theorem wilderStep_foldl_nonneg (ds : List ℚ) (period : ℕ) (hp : 1 ≤ period) :
    ∀ g l : ℚ, 0 ≤ g → 0 ≤ l →
      0 ≤ (ds.foldl (wilderStep period) (g, l)).1 ∧
      0 ≤ (ds.foldl (wilderStep period) (g, l)).2 := by
  have hq : (1 : ℚ) ≤ (period : ℚ) := by exact_mod_cast hp
  have hq0 : (0 : ℚ) < (period : ℚ) := by linarith
  have hq1 : (0 : ℚ) ≤ (period : ℚ) - 1 := by linarith
  induction ds with
  | nil => exact fun g l hg hl => ⟨hg, hl⟩
  | cons d ds ih =>
    intro g l hg hl
    rw [List.foldl_cons]
    by_cases hd : 0 ≤ d
    · rw [show wilderStep period (g, l) d =
          ((g * ((period : ℚ) - 1) + d) / (period : ℚ),
           (l * ((period : ℚ) - 1)) / (period : ℚ)) from by simp [wilderStep, hd]]
      exact ih _ _
        (div_nonneg (by nlinarith) hq0.le)
        (div_nonneg (by nlinarith) hq0.le)
    · push_neg at hd
      rw [show wilderStep period (g, l) d =
          ((g * ((period : ℚ) - 1)) / (period : ℚ),
           (l * ((period : ℚ) - 1) - d) / (period : ℚ)) from by
        simp [wilderStep, not_le.mpr hd]]
      exact ih _ _
        (div_nonneg (by nlinarith) hq0.le)
        (div_nonneg (by nlinarith) hq0.le)

theorem rsiAverages_nonneg (prices : List ℚ) (period : ℕ) (hp : 1 ≤ period) :
    0 ≤ (rsiAverages prices period).1 ∧ 0 ≤ (rsiAverages prices period).2 := by
  have hq : (1 : ℚ) ≤ (period : ℚ) := by exact_mod_cast hp
  have hseed := seedStep_foldl_nonneg ((diffs prices).take period) 0 0 le_rfl le_rfl
  exact wilderStep_foldl_nonneg ((diffs prices).drop period) period hp _ _
    (div_nonneg hseed.1 (by linarith)) (div_nonneg hseed.2 (by linarith))

theorem rsiFinal_bounds (a : ℚ × ℚ) (h1 : 0 ≤ a.1) (h2 : 0 ≤ a.2) :
    ∀ r : ℚ, rsiFinal a = some r → 0 ≤ r ∧ r ≤ 100 := by
  intro r hr
  unfold rsiFinal at hr
  by_cases hz : a.2 = 0
  · by_cases ho : a.1 = 0
    · simp [hz, ho] at hr
    · rw [if_pos hz, if_neg ho, Option.some.injEq] at hr
      constructor <;> rw [← hr] <;> norm_num
  · rw [if_neg hz, Option.some.injEq] at hr
    have hl : 0 < a.2 := lt_of_le_of_ne h2 (Ne.symm hz)
    have hrs : 0 ≤ a.1 / a.2 := div_nonneg h1 hl.le
    have hden : 0 < 1 + a.1 / a.2 := by linarith
    have hfrac_pos : 0 < 100 / (1 + a.1 / a.2) := by positivity
    have hfrac_le : 100 / (1 + a.1 / a.2) ≤ 100 := by
      rw [div_le_iff₀ hden]; nlinarith
    constructor <;> [linarith [hr] ; linarith [hr]]

/-- C4 (amended): for every period at least 1, RSI with fewer than
`period + 1` samples is exactly 50, and whenever the final division
produces a real number at all, the result lies in `[0, 100]`.  The
unamended claim fails because on a constant price list both running
averages are 0 and the JavaScript expression is `0 / 0 = NaN` (modelled
as `none`), which is not a value in `[0, 100]`. -/
theorem c4_rsi_range (prices : List ℚ) (period : ℕ) (hp : 1 ≤ period) :
    (prices.length < period + 1 → calculateRSI prices period = some 50) ∧
    (∀ r : ℚ, calculateRSI prices period = some r → 0 ≤ r ∧ r ≤ 100) := by
  constructor
  · intro h; simp [calculateRSI, h]
  · intro r hr
    by_cases hlen : prices.length < period + 1
    · simp only [calculateRSI, if_pos hlen, Option.some.injEq] at hr
      constructor <;> rw [← hr] <;> norm_num
    · simp only [calculateRSI, if_neg hlen] at hr
      have ha := rsiAverages_nonneg prices period hp
      exact rsiFinal_bounds (rsiAverages prices period) ha.1 ha.2 r hr

/-- C4 witness: with 3 samples and period 14 the RSI is exactly 50 (in
bounds), and on `[2, 1]` with period 1 the main branch runs and returns
0, which the amended bound confirms lies in `[0, 100]`. -/
theorem c4_rsi_range_witness :
    calculateRSI [45, 46, 47] 14 = some 50 ∧
    calculateRSI [2, 1] 1 = some 0 ∧ (0 : ℚ) ≤ 0 ∧ (0 : ℚ) ≤ 100 := by
  have h50 := (c4_rsi_range [45, 46, 47] 14 (by norm_num)).1 (by norm_num)
  have heval : calculateRSI [2, 1] 1 = some 0 := by
    norm_num [calculateRSI, rsiAverages, rsiFinal, diffs, seedStep, wilderStep,
      List.foldl]
  have hb := (c4_rsi_range [2, 1] 1 (by norm_num)).2 0 heval
  exact ⟨h50, heval, hb.1, hb.2⟩

/-- C4 counterexample: on the constant price list `[5, 5, 5]` with period
2 (which has `period + 1` samples, so the main branch runs) both running
averages are 0, the JavaScript division is `0 / 0 = NaN`, and no value in
`[0, 100]` is returned. -/
theorem c4_rsi_range_counterexample : calculateRSI [5, 5, 5] 2 = none := by
  norm_num [calculateRSI, rsiAverages, rsiFinal, diffs, seedStep, wilderStep,
    List.foldl]

/-- C5 (amended): the full-history recursive EMA with smoothing factor
`k = 2/(period+1)` on `[1, ..., 10]` with period 5 returns exactly
`158488/19683 ≈ 8.05` (not ≈ 8.54 as the repository's own unit test
expects). -/
theorem c5_ema_value :
    calculateEMA [1, 2, 3, 4, 5, 6, 7, 8, 9, 10] 5 = some (158488 / 19683) ∧
    |(158488 : ℚ) / 19683 - 805 / 100| ≤ 1 / 100 := by
  constructor
  · norm_num [calculateEMA, List.foldl]
  · rw [abs_of_nonneg (by norm_num)]; norm_num

/-- C5 counterexample: the value returned by `calculateEMA` on
`[1, ..., 10]` with period 5 is `158488/19683 ≈ 8.05`, which is not
within one decimal place of 8.54 (it is not even within 0.25 of it). -/
theorem c5_ema_value_counterexample :
    calculateEMA [1, 2, 3, 4, 5, 6, 7, 8, 9, 10] 5 = some (158488 / 19683) ∧
    ¬ |(158488 : ℚ) / 19683 - 854 / 100| ≤ 1 / 4 := by
  constructor
  · norm_num [calculateEMA, List.foldl]
  · rw [abs_of_nonpos (by norm_num)]; norm_num

theorem trTail_mem_nonneg :
    ∀ (hs ls cs : List ℚ) (x : ℚ), x ∈ trTail hs ls cs → 0 ≤ x := by
  intro hs
  induction hs with
  | nil => intro ls cs x hx; simp [trTail] at hx
  | cons h hs ih =>
    intro ls cs x hx
    cases ls with
    | nil => simp [trTail] at hx
    | cons l ls =>
      cases cs with
      | nil => simp [trTail] at hx
      | cons c cs =>
        rw [trTail] at hx
        rcases List.mem_cons.mp hx with h1 | h2
        · rw [h1]
          exact le_trans (le_trans (abs_nonneg (h - c)) (le_max_left _ _))
            (le_max_right _ _)
        · exact ih ls cs x h2

theorem foldl_atrStep_nonneg (ts : List ℚ) (period : ℕ) (hp : 1 ≤ period) :
    ∀ a : ℚ, 0 ≤ a → (∀ x ∈ ts, 0 ≤ x) → 0 ≤ ts.foldl (atrStep period) a := by
  have hq : (1 : ℚ) ≤ (period : ℚ) := by exact_mod_cast hp
  induction ts with
  | nil => intro a ha _; simpa using ha
  | cons t ts ih =>
    intro a ha hts
    rw [List.foldl_cons]
    refine ih _ ?_ (fun x hx => hts x (List.mem_cons_of_mem _ hx))
    have ht : 0 ≤ t := hts t (List.mem_cons_self _ _)
    unfold atrStep
    exact div_nonneg (by nlinarith) (by linarith)

/-- C6 (amended): ATR with fewer than 2 high samples is exactly 0, and
for equal-length inputs with period at least 1 the ATR is nonnegative
provided additionally `low[0] ≤ high[0]` (the first true range is
`high[0] - low[0]`, with no absolute value, so an inverted first bar is
the one way to drive the ATR negative; all later true ranges are
nonnegative by construction). -/
theorem c6_atr_nonneg (highs lows closes : List ℚ) (period : ℕ) :
    (highs.length < 2 → calculateATR highs lows closes period = 0) ∧
    (lows.length = highs.length → closes.length = highs.length → 1 ≤ period →
      (∀ h0 l0 : ℚ, highs.head? = some h0 → lows.head? = some l0 → l0 ≤ h0) →
      0 ≤ calculateATR highs lows closes period) := by
  constructor
  · intro h; simp [calculateATR, h]
  · intro hlen _hclen hp hhead
    by_cases h2 : highs.length < 2
    · simp [calculateATR, h2]
    · cases highs with
      | nil => simp at h2
      | cons h hs =>
        cases lows with
        | nil => simp at hlen
        | cons l ls =>
          have hl0 : l ≤ h := hhead h l rfl rfl
          simp only [calculateATR, if_neg h2, trueRanges]
          exact foldl_atrStep_nonneg (trTail hs ls closes) period hp (h - l)
            (by linarith) (fun x hx => trTail_mem_nonneg hs ls closes x hx)

/-- C6 witness: with a single bar the ATR is 0, and on two well-formed
bars (highs above lows) with period 5 the ATR is nonnegative. -/
theorem c6_atr_nonneg_witness :
    calculateATR [10] [9] [19 / 2] 5 = 0 ∧
    0 ≤ calculateATR [10, 11] [9, 10] [19 / 2, 21 / 2] 5 := by
  refine ⟨(c6_atr_nonneg [10] [9] [19 / 2] 5).1 (by norm_num), ?_⟩
  refine (c6_atr_nonneg [10, 11] [9, 10] [19 / 2, 21 / 2] 5).2 rfl rfl
    (by norm_num) ?_
  intro h0 l0 hh hl
  simp only [List.head?_cons, Option.some.injEq] at hh hl
  rw [← hh, ← hl]; norm_num

/-- C6 counterexample: equal-length inputs with period 3 but an inverted
first bar (`high[0] = 1 < 5 = low[0]`) make the first true range
negative and the ATR comes out to `-8/3 < 0`. -/
theorem c6_atr_nonneg_counterexample :
    calculateATR [1, 1] [5, 1] [1, 1] 3 = -8 / 3 ∧ ¬ (0 : ℚ) ≤ -8 / 3 := by
  constructor
  · norm_num [calculateATR, trueRanges, trTail, atrStep, List.foldl]
  · norm_num

theorem jsSliceLast_length {α : Type*} (n : ℕ) (l : List α) (hn : n ≠ 0)
    (h : n ≤ l.length) : (jsSliceLast n l).length = n := by
  simp [jsSliceLast, hn, Nat.sub_sub_self h]

theorem jsSliceLast_suffix {α : Type*} (n : ℕ) (l : List α) :
    List.IsSuffix (jsSliceLast n l) l := by
  unfold jsSliceLast
  by_cases hn : n = 0
  · rw [if_pos hn]
  · rw [if_neg hn]; exact List.drop_suffix _ _

theorem reachable_lengths (mp : ℕ) (hmp : 1 ≤ mp) :
    ∀ h : PairHistory, Reachable mp h →
      h.highs.length = h.prices.length ∧ h.lows.length = h.prices.length ∧
      h.volumes.length = h.prices.length ∧ h.prices.length ≤ mp := by
  intro h hr
  induction hr with
  | empty => simp [emptyHistory]
  | step h price volume _ ih =>
    obtain ⟨e1, e2, e3, hb⟩ := ih
    simp only [updateMarketData]
    by_cases hc : mp < (h.prices ++ [price]).length
    · rw [if_pos hc]
      have hne : mp ≠ 0 := by omega
      have hc2 : mp < (h.highs ++ [price]).length := by
        simpa [e1] using hc
      have hc3 : mp < (h.lows ++ [price]).length := by
        simpa [e2] using hc
      have hc4 : mp < (h.volumes ++ [volume]).length := by
        simpa [e3] using hc
      have L1 := jsSliceLast_length mp (h.prices ++ [price]) hne (le_of_lt hc)
      have L2 := jsSliceLast_length mp (h.highs ++ [price]) hne (le_of_lt hc2)
      have L3 := jsSliceLast_length mp (h.lows ++ [price]) hne (le_of_lt hc3)
      have L4 := jsSliceLast_length mp (h.volumes ++ [volume]) hne (le_of_lt hc4)
      exact ⟨by simp [L1, L2], by simp [L1, L3], by simp [L1, L4], by simp [L1]⟩
    · rw [if_neg hc]
      push_neg at hc
      exact ⟨by simp [e1], by simp [e2], by simp [e3], by simpa using hc⟩

/-- C3 (amended): provided `maxPeriod ≥ 1` (that is, some configured EMA
period or the Bollinger period is positive), after every completed
`updateMarketData` call from a reachable history state all four sequences
have equal length at most `maxPeriod`, and each updated sequence is a
suffix of the pushed sequence (eviction removes oldest elements first).
The unamended claim fails in the degenerate configuration with
`maxPeriod = 0`, where JavaScript `slice(-0)` is `slice(0)` and removes
nothing, so the length bound is violated. -/
theorem c3_history_invariant (emaPeriods : List ℕ) (bbPeriod : ℕ)
    (hmp : 1 ≤ maxPeriod emaPeriods bbPeriod)
    (h : PairHistory) (hr : Reachable (maxPeriod emaPeriods bbPeriod) h)
    (price volume : ℚ) :
    (updateMarketData (maxPeriod emaPeriods bbPeriod) h price volume).prices.length
        ≤ maxPeriod emaPeriods bbPeriod ∧
    (updateMarketData (maxPeriod emaPeriods bbPeriod) h price volume).highs.length =
      (updateMarketData (maxPeriod emaPeriods bbPeriod) h price volume).prices.length ∧
    (updateMarketData (maxPeriod emaPeriods bbPeriod) h price volume).lows.length =
      (updateMarketData (maxPeriod emaPeriods bbPeriod) h price volume).prices.length ∧
    (updateMarketData (maxPeriod emaPeriods bbPeriod) h price volume).volumes.length =
      (updateMarketData (maxPeriod emaPeriods bbPeriod) h price volume).prices.length ∧
    List.IsSuffix
      (updateMarketData (maxPeriod emaPeriods bbPeriod) h price volume).prices
      (h.prices ++ [price]) ∧
    List.IsSuffix
      (updateMarketData (maxPeriod emaPeriods bbPeriod) h price volume).highs
      (h.highs ++ [price]) ∧
    List.IsSuffix
      (updateMarketData (maxPeriod emaPeriods bbPeriod) h price volume).lows
      (h.lows ++ [price]) ∧
    List.IsSuffix
      (updateMarketData (maxPeriod emaPeriods bbPeriod) h price volume).volumes
      (h.volumes ++ [volume]) := by
  have hinv := reachable_lengths _ hmp _ (Reachable.step h price volume hr)
  refine ⟨hinv.2.2.2, hinv.1, hinv.2.1, hinv.2.2.1, ?_, ?_, ?_, ?_⟩ <;>
  · simp only [updateMarketData]
    by_cases hc : maxPeriod emaPeriods bbPeriod < (h.prices ++ [price]).length
    · rw [if_pos hc]; exact jsSliceLast_suffix _ _
    · rw [if_neg hc]

/-- C3 witness: with EMA periods `[2]` and Bollinger period 1 the bound is
`maxPeriod = 2`; one update from the (reachable) empty history keeps the
bound and the equal lengths. -/
theorem c3_history_invariant_witness :
    (updateMarketData (maxPeriod [2] 1) emptyHistory 7 3).prices.length ≤
      maxPeriod [2] 1 ∧
    (updateMarketData (maxPeriod [2] 1) emptyHistory 7 3).highs.length =
      (updateMarketData (maxPeriod [2] 1) emptyHistory 7 3).prices.length ∧
    List.IsSuffix (updateMarketData (maxPeriod [2] 1) emptyHistory 7 3).prices
      (emptyHistory.prices ++ [7]) := by
  have h := c3_history_invariant [2] 1 (by decide) emptyHistory Reachable.empty 7 3
  exact ⟨h.1, h.2.1, h.2.2.2.2.1⟩

/-- C3 counterexample: in the degenerate configuration with no positive
period (`maxPeriod = Math.max(0 * 2) = 0`), one completed update from the
reachable empty history leaves a sequence of length 1 — `slice(-0)` is
`slice(0)` in JavaScript and removes nothing — violating the claimed
bound `length ≤ maxPeriod`. -/
theorem c3_history_invariant_counterexample :
    maxPeriod [] 0 = 0 ∧
    Reachable (maxPeriod [] 0) emptyHistory ∧
    updateMarketData (maxPeriod [] 0) emptyHistory 1 1 = ⟨[1], [1], [1], [1]⟩ ∧
    ¬ ((updateMarketData (maxPeriod [] 0) emptyHistory 1 1).prices.length ≤
        maxPeriod [] 0) := by
  refine ⟨rfl, Reachable.empty, ?_, ?_⟩
  · simp [updateMarketData, emptyHistory, jsSliceLast, maxPeriod]
  · simp [updateMarketData, emptyHistory, jsSliceLast, maxPeriod]

theorem calculateBollingerBands_main (prices : List ℝ) (period : ℕ) (s : ℝ)
    (hp : 1 ≤ period) (hlen : period ≤ prices.length) :
    calculateBollingerBands prices period s =
      some ⟨listMean (jsSliceLast period prices) +
              Real.sqrt (popVariance (jsSliceLast period prices) period) * s,
            listMean (jsSliceLast period prices),
            listMean (jsSliceLast period prices) -
              Real.sqrt (popVariance (jsSliceLast period prices) period) * s⟩ := by
  have hne : period ≠ 0 := by omega
  have hlen' : ¬ prices.length < period := not_lt.mpr hlen
  have hrellen : (jsSliceLast period prices).length = period :=
    jsSliceLast_length _ _ hne hlen
  have hrelne : ¬ jsSliceLast period prices = [] := by
    intro he
    rw [he] at hrellen
    exact hne hrellen.symm
  simp only [calculateBollingerBands, if_neg hlen', if_neg hrelne]
  rw [listMean, hrellen, popVariance]

/-- C7 (amended): for period ≥ 1 and enough data, the bands are
`mean ± sqrt(populationVariance) * stdDevMultiplier` around the
arithmetic mean of the last `period` prices, and they are strictly
ordered whenever the variance is positive *and the multiplier is
positive*; with insufficient data all three bands equal the last price.
The unamended claim fails for multiplier 0, where the three bands
coincide despite positive variance. -/
theorem c7_bollinger_bands (prices : List ℝ) (period : ℕ) (s : ℝ) :
    (1 ≤ period → period ≤ prices.length →
      calculateBollingerBands prices period s =
        some ⟨listMean (jsSliceLast period prices) +
                Real.sqrt (popVariance (jsSliceLast period prices) period) * s,
              listMean (jsSliceLast period prices),
              listMean (jsSliceLast period prices) -
                Real.sqrt (popVariance (jsSliceLast period prices) period) * s⟩ ∧
      (0 < popVariance (jsSliceLast period prices) period → 0 < s →
        listMean (jsSliceLast period prices) -
            Real.sqrt (popVariance (jsSliceLast period prices) period) * s <
          listMean (jsSliceLast period prices) ∧
        listMean (jsSliceLast period prices) <
          listMean (jsSliceLast period prices) +
            Real.sqrt (popVariance (jsSliceLast period prices) period) * s)) ∧
    (∀ x : ℝ, prices.getLast? = some x → prices.length < period →
      calculateBollingerBands prices period s = some ⟨x, x, x⟩) := by
  constructor
  · intro hp hlen
    refine ⟨calculateBollingerBands_main prices period s hp hlen, ?_⟩
    intro hvar hs
    have hsd : 0 < Real.sqrt (popVariance (jsSliceLast period prices) period) :=
      Real.sqrt_pos.mpr hvar
    have hprod : 0 < Real.sqrt (popVariance (jsSliceLast period prices) period) * s :=
      mul_pos hsd hs
    constructor <;> linarith
  · intro x hx hlt
    simp [calculateBollingerBands, if_pos hlt, hx]

/-- C7 witness: on prices `[1, 3]` with period 2 and multiplier 1 the
mean is 2, the population variance is 1 (> 0), the bands are
`(3, 2, 1)`, strictly ordered; and on the single price `[5]` with period
2 all three bands are 5. -/
theorem c7_bollinger_bands_witness :
    calculateBollingerBands [(1 : ℝ), 3] 2 1 = some ⟨3, 2, 1⟩ ∧
    ((1 : ℝ) < 2 ∧ (2 : ℝ) < 3) ∧
    calculateBollingerBands [(5 : ℝ)] 2 1 = some ⟨5, 5, 5⟩ := by
  have h := c7_bollinger_bands [(1 : ℝ), 3] 2 1
  have hrel : jsSliceLast 2 [(1 : ℝ), 3] = [1, 3] := by
    simp [jsSliceLast]
  have hmean : listMean (jsSliceLast 2 [(1 : ℝ), 3]) = 2 := by
    rw [hrel]
    norm_num [listMean]
  have hvar : popVariance (jsSliceLast 2 [(1 : ℝ), 3]) 2 = 1 := by
    rw [hrel]
    norm_num [popVariance]
  have hmain := h.1 (by norm_num) (by norm_num)
  have heq := hmain.1
  rw [hmean, hvar, Real.sqrt_one] at heq
  norm_num at heq
  have hstrict := hmain.2 (by rw [hvar]; norm_num) (by norm_num)
  rw [hmean, hvar, Real.sqrt_one] at hstrict
  have hfall := (c7_bollinger_bands [(5 : ℝ)] 2 1).2 5 (by simp) (by norm_num)
  exact ⟨heq, ⟨by linarith [hstrict.1], by linarith [hstrict.2]⟩, hfall⟩

/-- C7 counterexample: on prices `[1, 3]` with period 2 the population
variance of the window is 1 > 0, yet with standard-deviation multiplier
0 the source returns equal bands `(2, 2, 2)`, so `lower < middle` fails. -/
theorem c7_bollinger_bands_counterexample :
    calculateBollingerBands [(1 : ℝ), 3] 2 0 = some ⟨2, 2, 2⟩ ∧
    0 < popVariance (jsSliceLast 2 [(1 : ℝ), 3]) 2 ∧
    ¬ ((2 : ℝ) < 2) := by
  have hrel : jsSliceLast 2 [(1 : ℝ), 3] = [1, 3] := by
    simp [jsSliceLast]
  refine ⟨?_, by rw [hrel]; norm_num [popVariance], by norm_num⟩
  have heq := calculateBollingerBands_main [(1 : ℝ), 3] 2 0 (by norm_num) (by norm_num)
  have hmean : listMean (jsSliceLast 2 [(1 : ℝ), 3]) = 2 := by
    rw [hrel]
    norm_num [listMean]
  rw [hmean] at heq
  norm_num at heq
  exact heq

/-- C10: on the empty price list both `calculateEMA` and
`calculateBollingerBands` read `prices[prices.length - 1]` out of bounds
(`undefined` in JavaScript), so the total embedding returns `none`; on
every non-empty list shorter than the period both return exactly the
last element (for the bands, three times). -/
theorem c10_insufficient_data_totality :
    (∀ period : ℕ, calculateEMA [] period = none) ∧
    (∀ (period : ℕ) (s : ℝ), calculateBollingerBands [] period s = none) ∧
    (∀ (p : ℚ) (ps : List ℚ) (period : ℕ), (p :: ps).length < period →
      calculateEMA (p :: ps) period = some ((p :: ps).getLast (List.cons_ne_nil p ps))) ∧
    (∀ (p : ℝ) (ps : List ℝ) (period : ℕ) (s : ℝ), (p :: ps).length < period →
      calculateBollingerBands (p :: ps) period s =
        some ⟨(p :: ps).getLast (List.cons_ne_nil p ps),
              (p :: ps).getLast (List.cons_ne_nil p ps),
              (p :: ps).getLast (List.cons_ne_nil p ps)⟩) := by
  refine ⟨?_, ?_, ?_, ?_⟩
  · intro period
    by_cases hp : ([] : List ℚ).length < period <;>
      simp [calculateEMA, hp]
  · intro period s
    by_cases hp : ([] : List ℝ).length < period <;>
      simp [calculateBollingerBands, jsSliceLast, hp]
  · intro p ps period hlt
    unfold calculateEMA
    rw [if_pos hlt]
    exact List.getLast?_eq_getLast_of_ne_nil (List.cons_ne_nil p ps)
  · intro p ps period s hlt
    unfold calculateBollingerBands
    rw [if_pos hlt,
      List.getLast?_eq_getLast_of_ne_nil (List.cons_ne_nil p ps), Option.map_some']

/-- C10 witness: EMA and the bands on the empty list are `none`; on
`[1, 2]` with period larger than the length the EMA is the last price 2,
and the bands are `(2, 2, 2)`. -/
theorem c10_insufficient_data_totality_witness :
    calculateEMA [] 5 = none ∧
    calculateBollingerBands ([] : List ℝ) 5 2 = none ∧
    calculateEMA [1, 2] 5 = some 2 ∧
    calculateBollingerBands [(1 : ℝ), 2] 20 2 = some ⟨2, 2, 2⟩ := by
  have h := c10_insufficient_data_totality
  refine ⟨h.1 5, h.2.1 5 2, ?_, ?_⟩
  · have := h.2.2.1 1 [2] 5 (by norm_num)
    simpa [List.getLast] using this
  · have := h.2.2.2 (1 : ℝ) [2] 20 2 (by norm_num)
    simpa [List.getLast] using this

/-- C8: a PRICE_CHANGE alert of severity HIGH is emitted exactly when
`|priceChange24h|` strictly exceeds the configured threshold, and the
persistence write is skipped exactly when none of the three alert
conditions is met. -/
theorem c8_alert_conditions (cfg : AlertConfig) (data : MarketData) :
    ((⟨AlertType.PRICE_CHANGE, Severity.HIGH⟩ : Alert) ∈ checkAlertConditions cfg data ↔
      cfg.alertThresholds.priceChange < |data.priceChange24h|) ∧
    (alertStoreWrite cfg data = none ↔
      ¬ cfg.alertThresholds.priceChange < |data.priceChange24h| ∧
      ¬ cfg.volumeThreshold * cfg.alertThresholds.volumeSpike < data.volume24h ∧
      ¬ data.liquidity < cfg.alertThresholds.lowLiquidity) := by
  by_cases h1 : cfg.alertThresholds.priceChange < |data.priceChange24h| <;>
  by_cases h2 : cfg.volumeThreshold * cfg.alertThresholds.volumeSpike < data.volume24h <;>
  by_cases h3 : data.liquidity < cfg.alertThresholds.lowLiquidity <;>
  simp [checkAlertConditions, alertStoreWrite, h1, h2, h3]

/-- C8 witness: with the test-suite thresholds (price-change threshold 5),
a snapshot with a 24h change of 10 yields the PRICE_CHANGE/HIGH alert,
and a quiet snapshot (change 2, no volume spike, ample liquidity) yields
no store write. -/
theorem c8_alert_conditions_witness :
    (⟨AlertType.PRICE_CHANGE, Severity.HIGH⟩ : Alert) ∈
      checkAlertConditions ⟨10000, ⟨5, 200, 500⟩⟩
        { price := 100, volume24h := 1000000, liquidity := 5000000,
          priceChange24h := 10, volatility := 0, indicators := ⟨0⟩ } ∧
    alertStoreWrite ⟨10000, ⟨5, 200, 500⟩⟩
      { price := 100, volume24h := 1000000, liquidity := 5000000,
        priceChange24h := 2, volatility := 0, indicators := ⟨0⟩ } = none := by
  constructor
  · refine (c8_alert_conditions _ _).1.mpr ?_
    rw [show |(10 : ℚ)| = 10 from abs_of_nonneg (by norm_num)]
    norm_num
  · refine (c8_alert_conditions _ _).2.mpr ?_
    rw [show |(2 : ℚ)| = 2 from abs_of_nonneg (by norm_num)]
    norm_num

/-- C9: whenever the analysis says to trade (RSI < 30) the direction is
buy (RSI < 30 implies RSI < 40), so every order that
`evaluateTradeOpportunities` submits has side buy — the sell side of
order submission is unreachable. -/
theorem c9_buy_only (marketData : MarketData) :
    ((analyzeTechnicalIndicators marketData).shouldTrade = true →
      (analyzeTechnicalIndicators marketData).direction = Direction.buy) ∧
    (∀ (cfg : RiskConfig) (limits : TradingLimits) (o : Order),
      evaluateTradeOpportunities cfg limits marketData = some o →
      o.side = Direction.buy) := by
  have hdir : (analyzeTechnicalIndicators marketData).shouldTrade = true →
      (analyzeTechnicalIndicators marketData).direction = Direction.buy := by
    simp only [analyzeTechnicalIndicators, decide_eq_true_eq]
    intro h
    rw [if_pos (by linarith)]
  refine ⟨hdir, fun cfg limits o ho => ?_⟩
  simp only [evaluateTradeOpportunities] at ho
  by_cases hs : (!isMarketSuitableForTrading limits marketData) = true
  · rw [if_pos hs] at ho
    exact absurd ho (by simp)
  · rw [if_neg hs, if_neg (by simp [canTrade])] at ho
    by_cases hc : ((analyzeTechnicalIndicators marketData).shouldTrade &&
        decide (0 < calculateConservativePosition cfg marketData.price
          (analyzeTechnicalIndicators marketData).confidence)) = true
    · rw [if_pos hc, Option.some.injEq] at ho
      have hc' : (analyzeTechnicalIndicators marketData).shouldTrade = true ∧
          0 < calculateConservativePosition cfg marketData.price
            (analyzeTechnicalIndicators marketData).confidence := by
        simpa using hc
      rw [← ho]
      exact hdir hc'.1
    · rw [if_neg hc] at ho
      exact absurd ho (by simp)

/-- C9 witness: an oversold snapshot (RSI 25) passing the suitability
gate produces exactly one submitted order, with side buy, size 8, entry
100, stop-loss 99.5 and take-profit 101. -/
theorem c9_buy_only_witness :
    evaluateTradeOpportunities riskConfig exampleLimits exampleMarketData =
      some ⟨Direction.buy, 8, 100, 199 / 2, 101⟩ ∧
    (⟨Direction.buy, 8, 100, 199 / 2, 101⟩ : Order).side = Direction.buy := by
  have heval : evaluateTradeOpportunities riskConfig exampleLimits exampleMarketData =
      some ⟨Direction.buy, 8, 100, 199 / 2, 101⟩ := by
    simp only [evaluateTradeOpportunities, isMarketSuitableForTrading, canTrade,
      analyzeTechnicalIndicators, calculateConservativePosition, availableCapital,
      calculateStopLoss, calculateTakeProfit, exampleLimits, exampleMarketData,
      riskConfig]
    norm_num
  exact ⟨heval, (c9_buy_only exampleMarketData).2 riskConfig exampleLimits _ heval⟩

end SolanaTrading
